import Mathlib

/-!
Shallow embedding of `deskcnc_serial.py` (HoFaLab DeskCNC interface).

Python floats are modelled as exact rationals (`ℚ`); Python's `int(...)`
conversion truncates toward zero, modelled by `truncRat`.  The special
float value `inf` (only ever passed to `encodeFeedrate` by `DeskCNC.G0`)
is modelled by `Option ℚ` with `none` standing for `float("inf")`;
IEEE division gives `3378400 / inf = 0.0`, hence `int(...) = 0` there.
Byte strings are modelled as `List ℕ` with every element intended `< 256`.
-/

/-- Python `int(q)` on a real quantity: truncation toward zero. -/
def truncRat (q : ℚ) : ℤ :=
  if 0 ≤ q then ⌊q⌋ else ⌈q⌉

/-- `(m).to_bytes(len, byteorder="little")` for a non-negative integer
already reduced modulo `256^len`: little-endian byte list. -/
def toBytesLE (len : ℕ) (m : ℕ) : List ℕ :=
  (List.range len).map (fun i => m / 256 ^ i % 256)

/-- Little-endian byte-list decoding (inverse of `toBytesLE` below `256^len`). -/
def decodeNatLE (bs : List ℕ) : ℕ :=
  bs.foldr (fun b acc => b + 256 * acc) 0

/-- Reads 4 little-endian bytes back as a signed (two's-complement) step count. -/
def decodeSteps (bs : List ℕ) : ℤ :=
  let m : ℤ := decodeNatLE bs
  if m < 2 ^ 31 then m else m - 2 ^ 32

/-- `encodeValueMM` (deskcnc_serial.py lines 35-39):
`numsteps = int(val / 0.015)` (1 step = 0.015 mm = 15/1000 mm), then
`numsteps.to_bytes(4, byteorder="little", signed=True)`.  Python's
`to_bytes(..., signed=True)` raises `OverflowError` outside the signed
32-bit range, so the result is an `Option`; in range, the wire bytes are
the two's-complement little-endian representation. -/
def encodeValueMM (val : ℚ) : Option (List ℕ) :=
  let numsteps : ℤ := truncRat (val / (15 / 1000))
  if -(2 ^ 31) ≤ numsteps ∧ numsteps < 2 ^ 31 then
    some (toBytesLE 4 ((numsteps % (2 ^ 32 : ℤ)).toNat))
  else none

/-- `MAX_FEEDRATE` (deskcnc_serial.py line 26) — note the source's names are
numerically inverted: this is the *low* clamp bound of the encoded value. -/
def MAX_FEEDRATE : ℤ := 1250

/-- `MIN_FEEDRATE` (deskcnc_serial.py line 25) — the *high* clamp bound. -/
def MIN_FEEDRATE : ℤ := 62500

/-- `num = int(3378400 / val)` of `encodeFeedrate` (line 44); the argument
`none` models `float("inf")`, for which IEEE division yields `0.0`. -/
def feedrateRaw : Option ℚ → ℤ
  | none => 0
  | some f => truncRat (3378400 / f)

/-- `num = int(np.clip(num, MAX_FEEDRATE, MIN_FEEDRATE))` (line 45):
`np.clip(a, lo, hi) = min (max a lo) hi`. -/
def feedrateClipped (f : Option ℚ) : ℤ :=
  min (max (feedrateRaw f) MAX_FEEDRATE) MIN_FEEDRATE

/-- `encodeFeedrate` (lines 41-46): clipped value as 2 little-endian
unsigned bytes (always in `[1250, 62500] ⊆ [0, 2^16)`, so `to_bytes`
cannot fail here). -/
def encodeFeedrate (f : Option ℚ) : List ℕ :=
  toBytesLE 2 (feedrateClipped f).toNat

/-- The spec's reading of the feed-rate formula: `round(K / mmPerMin)`
with K = 3378400, then the same clamp (this definition follows the spec's
words, for comparison with `feedrateClipped` above). -/
def feedrateRoundedSpec (f : ℚ) : ℤ :=
  min (max (round ((3378400 : ℚ) / f)) 1250) 62500

/-! ## Modal translator data model (`ModalGCodeParser`, lines 243-364)

The parsed-input side (external library `pygcode`) is modelled only at its
interface: a word is a letter plus a rational value, a gcode is a command
kind plus its attached parameter words, a line is its bare modal parameter
words plus its (already sorted) gcodes.

Serial-device behaviour is modelled by an oracle `dev : ℕ → Option String`
indexed by successive device-command executions: `none` means the command
completes, `some msg` means it raises `serial.SerialException(msg)`
(every error `DeskCNC.executeCommand` and `DeskCNC.machineReady` raise is
a `serial.SerialException`, including the post-retry
"wrong response from device").  `restart_device` (lines 101-118) loops
until the device is back up, so it is modelled as always succeeding. -/

/-- Word letters that `applyWord` inspects; every other letter is `other`. -/
inductive Letter
  | X | Y | Z | F | other
deriving DecidableEq, Repr

/-- A parsed parameter word (`pygcode` word): letter and value. -/
structure Word where
  letter : Letter
  value : ℚ
deriving DecidableEq, Repr

/-- The last active motion mode (`self.mode`, assigned at lines 289, 295,
299, 302 and initialised to `GCodeLinearMove` at line 251). -/
inductive MotionMode
  | rapid | linear | arcCW | arcCCW
deriving DecidableEq, Repr

/-- The modal state held by `ModalGCodeParser` (lines 245-257), minus the
device handle and the input stream. -/
structure MState where
  posX : ℚ
  posY : ℚ
  posZ : ℚ
  feedrate : ℚ
  mode : MotionMode
  offsetX : ℚ
  offsetY : ℚ
  offsetZ : ℚ
  spindleOn : Bool
  absolutepositionmode : Bool
deriving DecidableEq, Repr

/-- `ModalGCodeParser.__init__` (lines 245-257). -/
def initialState : MState :=
  { posX := 0, posY := 0, posZ := 0, feedrate := 300, mode := .linear,
    offsetX := 0, offsetY := 0, offsetZ := 0,
    spindleOn := false, absolutepositionmode := true }

/-- `ModalGCodeParser.applyWord` (lines 259-277). -/
def applyWord (s : MState) (w : Word) : MState :=
  if s.absolutepositionmode then
    match w.letter with
    | .X => { s with posX := w.value }
    | .Y => { s with posY := w.value }
    | .Z => { s with posZ := w.value }
    | .F => { s with feedrate := w.value }
    | .other => s
  else
    match w.letter with
    | .X => { s with posX := s.posX + w.value }
    | .Y => { s with posY := s.posY + w.value }
    | .Z => { s with posZ := s.posZ + w.value }
    | .F => { s with feedrate := w.value }
    | .other => s

/-- `for word in ...: self.applyWord(word)` (lines 281-282, 352-353). -/
def applyWords (s : MState) (ws : List Word) : MState :=
  ws.foldl applyWord s

/-- The gcode kinds `executeGCode` distinguishes (its `type(gcode) is ...`
chain, lines 284-339); `unsupported` is the final `else` branch. -/
inductive GCodeKind
  | feedRate (w : Word)
  | rapidMove | linearMove | arcMoveCW | arcMoveCCW
  | selectXYPlane | selectZXPlane | selectYZPlane
  | useInches | useMillimeters
  | absoluteDistanceMode | incrementalDistanceMode
  | unitsPerMinuteMode
  | startSpindleCW | startSpindleCCW | stopSpindle | coolantOff
  | unsupported
deriving DecidableEq, Repr

/-- A parsed gcode: its kind plus the parameter words attached to it
(`gcode.params.values()`, in insertion order). -/
structure GCode where
  kind : GCodeKind
  params : List Word
deriving DecidableEq, Repr

/-- A device command successfully carried out (the trace records the
arguments handed to `DeskCNC.G0` / `DeskCNC.G1` / `DeskCNC.spindle`,
plus session restarts).  `spindle true` is the `b'\x01'` state byte sent
by `M3` and by `M4` (the hardware has no reverse, line 233);
`spindle false` is `M5`'s `b'\x00'`. -/
inductive DevCmd
  | g0 (x y z : ℚ)
  | g1 (x y z f : ℚ)
  | spindle (state : Bool)
  | restart
deriving DecidableEq, Repr

/-- A Python exception escaping `executeGCode`'s `try`:
`serial.SerialException(msg)` or `NotImplementedError`. -/
inductive PyErr
  | serialExn (msg : String)
  | notImplemented
deriving DecidableEq, Repr

/-- The feed-rate clamp of the `GCodeLinearMove` branch (lines 291-293):
mutates the modal feed rate itself before the move is emitted. -/
def linearClamp (s : MState) : MState :=
  if s.feedrate > 1620 then { s with feedrate := 1620 } else s

/-- The recovery assignments of the `except` handler (lines 343-345):
`offsetX = -posX; offsetY = -posY; offsetZ = -posZ`. -/
def recov (s : MState) : MState :=
  { s with offsetX := -s.posX, offsetY := -s.posY, offsetZ := -s.posZ }

/-- The `try` block of `executeGCode` (lines 280-339): apply the gcode's
parameter words, then branch on the gcode kind.  Result: new modal state,
next oracle index, device commands successfully executed, and the
exception (if one was raised).  Branches that raise before mutating state
(`G2`, `G3`, `G18`, `G19`, `G20`) leave the state as after the parameter
words; a faulted device call consumes its oracle slot and skips the
`self.mode` / `self.spindleOn` assignment that follows it. -/
def tryBody (dev : ℕ → Option String) (g : GCode) (s : MState) (n : ℕ) :
    MState × ℕ × List DevCmd × Option PyErr :=
  let s := applyWords s g.params
  match g.kind with
  | .feedRate w => (applyWord s w, n, [], none)
  | .rapidMove =>
      match dev n with
      | some msg => (s, n + 1, [], some (.serialExn msg))
      | none =>
          ({ s with mode := .rapid }, n + 1,
           [.g0 (s.posX + s.offsetX) (s.posY + s.offsetY) (s.posZ + s.offsetZ)], none)
  | .linearMove =>
      let s := linearClamp s
      match dev n with
      | some msg => (s, n + 1, [], some (.serialExn msg))
      | none =>
          ({ s with mode := .linear }, n + 1,
           [.g1 (s.posX + s.offsetX) (s.posY + s.offsetY) (s.posZ + s.offsetZ) s.feedrate],
           none)
  | .arcMoveCW => (s, n, [], some .notImplemented)
  | .arcMoveCCW => (s, n, [], some .notImplemented)
  | .selectXYPlane => (s, n, [], none)
  | .selectZXPlane => (s, n, [], some .notImplemented)
  | .selectYZPlane => (s, n, [], some .notImplemented)
  | .useInches => (s, n, [], some .notImplemented)
  | .useMillimeters => (s, n, [], none)
  | .absoluteDistanceMode => ({ s with absolutepositionmode := true }, n, [], none)
  | .incrementalDistanceMode => ({ s with absolutepositionmode := false }, n, [], none)
  | .unitsPerMinuteMode => (s, n, [], none)
  | .startSpindleCW =>
      match dev n with
      | some msg => (s, n + 1, [], some (.serialExn msg))
      | none => ({ s with spindleOn := true }, n + 1, [.spindle true], none)
  | .startSpindleCCW =>
      match dev n with
      | some msg => (s, n + 1, [], some (.serialExn msg))
      | none => ({ s with spindleOn := true }, n + 1, [.spindle true], none)
  | .stopSpindle =>
      match dev n with
      | some msg => (s, n + 1, [], some (.serialExn msg))
      | none => ({ s with spindleOn := false }, n + 1, [.spindle false], none)
  | .coolantOff => (s, n, [], none)
  | .unsupported => (s, n, [], none)

/-- `ModalGCodeParser.executeGCode` (lines 279-348): run the `try` body;
on `serial.SerialException` run the handler (lines 340-348): restart the
device, set the recovery offsets, reissue spindle-on when the spindle was
on, then re-attempt the same gcode recursively.  The `M3` reissued inside
the handler is itself unprotected: if it faults, the exception escapes.
The source recursion is unbounded, so the embedding carries fuel;
`none` = fuel ran out (in the source: still recursing). -/
def executeGCode (dev : ℕ → Option String) :
    ℕ → GCode → MState → ℕ → Option (MState × ℕ × List DevCmd × Option PyErr)
  | 0, _, _, _ => none
  | fuel + 1, g, s, n =>
    match tryBody dev g s n with
    | (s₁, n₁, tr₁, some (.serialExn _)) =>
        let s₂ := recov s₁
        if s₂.spindleOn then
          match dev n₁ with
          | some msg => some (s₂, n₁ + 1, tr₁ ++ [.restart], some (.serialExn msg))
          | none =>
              match executeGCode dev fuel g s₂ (n₁ + 1) with
              | none => none
              | some (s₃, n₃, tr₃, e) =>
                  some (s₃, n₃, tr₁ ++ [.restart, .spindle true] ++ tr₃, e)
        else
          match executeGCode dev fuel g s₂ n₁ with
          | none => none
          | some (s₃, n₃, tr₃, e) => some (s₃, n₃, tr₁ ++ [.restart] ++ tr₃, e)
    | (s₁, n₁, tr₁, some .notImplemented) => some (s₁, n₁, tr₁, some .notImplemented)
    | (s₁, n₁, tr₁, none) => some (s₁, n₁, tr₁, none)

/-- A parsed input line (`pygcode.Line`, line 351): the bare modal
parameter words of the block and its gcodes in `sorted` dispatch order. -/
structure Line where
  modalParams : List Word
  gcodes : List GCode
deriving DecidableEq, Repr

/-- The gcode constructed by `self.mode()` (line 357): the last active
motion command with no parameter words. -/
def motionGCode : MotionMode → GCode
  | .rapid => ⟨.rapidMove, []⟩
  | .linear => ⟨.linearMove, []⟩
  | .arcCW => ⟨.arcMoveCW, []⟩
  | .arcCCW => ⟨.arcMoveCCW, []⟩

/-- `for gcode in sorted(line.block.gcodes): self.executeGCode(gcode)`
(lines 354-355); an exception escaping `executeGCode` aborts the rest of
the line. -/
def execList (dev : ℕ → Option String) :
    ℕ → List GCode → MState → ℕ → Option (MState × ℕ × List DevCmd × Option PyErr)
  | _, [], s, n => some (s, n, [], none)
  | fuel, g :: gs, s, n =>
    match executeGCode dev fuel g s n with
    | none => none
    | some (s₁, n₁, tr₁, some e) => some (s₁, n₁, tr₁, some e)
    | some (s₁, n₁, tr₁, none) =>
        match execList dev fuel gs s₁ n₁ with
        | none => none
        | some (s₂, n₂, tr₂, e) => some (s₂, n₂, tr₁ ++ tr₂, e)

/-- `ModalGCodeParser.parseLine` (lines 350-357): apply the line's bare
modal parameter words, execute its gcodes, and when the line had no
gcode at all re-dispatch the last active motion mode. -/
def parseLine (dev : ℕ → Option String) (fuel : ℕ) (line : Line)
    (s : MState) (n : ℕ) : Option (MState × ℕ × List DevCmd × Option PyErr) :=
  let s := applyWords s line.modalParams
  match execList dev fuel line.gcodes s n with
  | none => none
  | some (s₁, n₁, tr₁, some e) => some (s₁, n₁, tr₁, some e)
  | some (s₁, n₁, tr₁, none) =>
      if line.gcodes.isEmpty then
        match executeGCode dev fuel (motionGCode s₁.mode) s₁ n₁ with
        | none => none
        | some (s₂, n₂, tr₂, e) => some (s₂, n₂, tr₁ ++ tr₂, e)
      else some (s₁, n₁, tr₁, none)

/-- `DeskCNC.executeCommand` (lines 135-147), abstracted over the stream
of acknowledgement bytes (`acks i` = the byte read after the `i`-th
transmission; the accepted marker is `b'\x02'`).  The ready-poll loop
(lines 141-142) is part of the session layer and is taken to complete
here.  Returns how many times the frame was transmitted together with
the outcome: `Except.error msg` models `raise serial.SerialException(msg)`. -/
def executeCommandRun (acks : ℕ → ℕ) (count : ℕ) : ℕ × Except String Unit :=
  if acks count = 2 then (1, Except.ok ())
  else if _h : count < 2 then
    let r := executeCommandRun acks (count + 1)
    (1 + r.1, r.2)
  else (1, Except.error "wrong response from device")
termination_by 2 - count

/-- The modal state at the moment the `GCodeLinearMove` branch calls
`device.G1` (line 294): parameter words applied, feed rate clamped.
When that call raises, this is the fault-time state. -/
def linearCallState (s : MState) (ws : List Word) : MState :=
  linearClamp (applyWords s ws)

/-- The modal state after the handler re-attempts the same linear move:
offsets set to the negated fault-time position, the same parameter words
applied a second time, feed rate clamped again. -/
def retryState (s : MState) (ws : List Word) : MState :=
  linearClamp (applyWords (recov (linearCallState s ws)) ws)

/-- A device oracle whose first command raises and whose later commands
succeed. -/
def oneFaultDev : ℕ → Option String :=
  fun i => if i = 0 then some "device not responding" else none

/-- A device oracle raising the Command Executor's post-retry error
(`serial.SerialException("wrong response from device")`, line 147) on
the first command and succeeding afterwards. -/
def wrongRespDev : ℕ → Option String :=
  fun i => if i = 0 then some "wrong response from device" else none

/-- An always-successful device oracle. -/
def allOkDev : ℕ → Option String := fun _ => none

/-- Does this gcode kind execute a device command through
`DeskCNC.executeCommand` — and can its dispatch therefore raise a
transport error?  True exactly for the rapid-move (`G0`, line 288),
linear-move (`G1`, line 294) and spindle (`M3`/`M4`/`M5`, lines
327-333) branches; the arc/plane/unit branches raise
`NotImplementedError` without touching the serial line, and the
remaining branches only mutate state or log. -/
def sendsDeviceCommand : GCodeKind → Bool
  | .rapidMove => true
  | .linearMove => true
  | .startSpindleCW => true
  | .startSpindleCCW => true
  | .stopSpindle => true
  | _ => false

/-- The modal state at the moment a device-command kind's branch invokes
the device (the fault-time state when that call raises): the gcode's
parameter words applied, plus the feed-rate clamp in the linear-move
branch. -/
def stateAtDevCall (k : GCodeKind) (ws : List Word) (s : MState) : MState :=
  match k with
  | .linearMove => linearClamp (applyWords s ws)
  | _ => applyWords s ws

/-- The modal state at which the handler's re-attempt of the same gcode
reaches the device call again: recovery offsets applied to the
fault-time state, then the same parameter words (and clamp) a second
time. -/
def reattemptState (k : GCodeKind) (ws : List Word) (s : MState) : MState :=
  stateAtDevCall k ws (recov (stateAtDevCall k ws s))

/-- The device command a kind's branch transmits from modal state `s`
(`none` for kinds that send nothing). -/
def devCmdOf : GCodeKind → MState → Option DevCmd
  | .rapidMove, s =>
      some (.g0 (s.posX + s.offsetX) (s.posY + s.offsetY) (s.posZ + s.offsetZ))
  | .linearMove, s =>
      some (.g1 (s.posX + s.offsetX) (s.posY + s.offsetY) (s.posZ + s.offsetZ) s.feedrate)
  | .startSpindleCW, _ => some (.spindle true)
  | .startSpindleCCW, _ => some (.spindle true)
  | .stopSpindle, _ => some (.spindle false)
  | _, _ => none

/-- The state assignment that follows a successful device call
(`self.mode = type(gcode)` at lines 289/295, `self.spindleOn = ...` at
lines 328/331/334); identity for the other kinds. -/
def postDevState : GCodeKind → MState → MState
  | .rapidMove, s => { s with mode := .rapid }
  | .linearMove, s => { s with mode := .linear }
  | .startSpindleCW, s => { s with spindleOn := true }
  | .startSpindleCCW, s => { s with spindleOn := true }
  | .stopSpindle, s => { s with spindleOn := false }
  | _, s => s


/-! ## Helper lemmas -/

theorem applyWord_offsetX (s : MState) (w : Word) :
    (applyWord s w).offsetX = s.offsetX := by
  rcases w with ⟨l, v⟩
  cases l <;> unfold applyWord <;> split <;> rfl

theorem applyWord_offsetY (s : MState) (w : Word) :
    (applyWord s w).offsetY = s.offsetY := by
  rcases w with ⟨l, v⟩
  cases l <;> unfold applyWord <;> split <;> rfl

theorem applyWord_offsetZ (s : MState) (w : Word) :
    (applyWord s w).offsetZ = s.offsetZ := by
  rcases w with ⟨l, v⟩
  cases l <;> unfold applyWord <;> split <;> rfl

theorem applyWord_spindleOn (s : MState) (w : Word) :
    (applyWord s w).spindleOn = s.spindleOn := by
  rcases w with ⟨l, v⟩
  cases l <;> unfold applyWord <;> split <;> rfl

theorem applyWord_mode (s : MState) (w : Word) :
    (applyWord s w).mode = s.mode := by
  rcases w with ⟨l, v⟩
  cases l <;> unfold applyWord <;> split <;> rfl

theorem applyWord_abs (s : MState) (w : Word) :
    (applyWord s w).absolutepositionmode = s.absolutepositionmode := by
  rcases w with ⟨l, v⟩
  cases l <;> unfold applyWord <;> split <;> rfl

theorem applyWords_nil (s : MState) : applyWords s [] = s := rfl

theorem applyWords_cons (s : MState) (w : Word) (ws : List Word) :
    applyWords s (w :: ws) = applyWords (applyWord s w) ws := rfl

theorem applyWords_offsetX (s : MState) (ws : List Word) :
    (applyWords s ws).offsetX = s.offsetX := by
  induction ws generalizing s with
  | nil => rfl
  | cons w ws ih => rw [applyWords_cons, ih, applyWord_offsetX]

theorem applyWords_offsetY (s : MState) (ws : List Word) :
    (applyWords s ws).offsetY = s.offsetY := by
  induction ws generalizing s with
  | nil => rfl
  | cons w ws ih => rw [applyWords_cons, ih, applyWord_offsetY]

theorem applyWords_offsetZ (s : MState) (ws : List Word) :
    (applyWords s ws).offsetZ = s.offsetZ := by
  induction ws generalizing s with
  | nil => rfl
  | cons w ws ih => rw [applyWords_cons, ih, applyWord_offsetZ]

theorem applyWords_spindleOn (s : MState) (ws : List Word) :
    (applyWords s ws).spindleOn = s.spindleOn := by
  induction ws generalizing s with
  | nil => rfl
  | cons w ws ih => rw [applyWords_cons, ih, applyWord_spindleOn]

theorem applyWords_mode (s : MState) (ws : List Word) :
    (applyWords s ws).mode = s.mode := by
  induction ws generalizing s with
  | nil => rfl
  | cons w ws ih => rw [applyWords_cons, ih, applyWord_mode]

theorem applyWords_abs (s : MState) (ws : List Word) :
    (applyWords s ws).absolutepositionmode = s.absolutepositionmode := by
  induction ws generalizing s with
  | nil => rfl
  | cons w ws ih => rw [applyWords_cons, ih, applyWord_abs]

theorem applyWords_feedrate_noF (s : MState) (ws : List Word)
    (h : ∀ w ∈ ws, w.letter ≠ Letter.F) :
    (applyWords s ws).feedrate = s.feedrate := by
  induction ws generalizing s with
  | nil => rfl
  | cons w ws ih =>
      rw [applyWords_cons, ih _ (fun x hx => h x (List.mem_cons_of_mem w hx))]
      rcases w with ⟨l, v⟩
      have hl : l ≠ Letter.F := h ⟨l, v⟩ (List.mem_cons_self _ _)
      cases l <;> unfold applyWord <;> split <;> first | rfl | exact absurd rfl hl

theorem linearClamp_posX (s : MState) : (linearClamp s).posX = s.posX := by
  unfold linearClamp; split <;> rfl

theorem linearClamp_posY (s : MState) : (linearClamp s).posY = s.posY := by
  unfold linearClamp; split <;> rfl

theorem linearClamp_posZ (s : MState) : (linearClamp s).posZ = s.posZ := by
  unfold linearClamp; split <;> rfl

theorem linearClamp_offsetX (s : MState) : (linearClamp s).offsetX = s.offsetX := by
  unfold linearClamp; split <;> rfl

theorem linearClamp_offsetY (s : MState) : (linearClamp s).offsetY = s.offsetY := by
  unfold linearClamp; split <;> rfl

theorem linearClamp_offsetZ (s : MState) : (linearClamp s).offsetZ = s.offsetZ := by
  unfold linearClamp; split <;> rfl

theorem linearClamp_spindleOn (s : MState) : (linearClamp s).spindleOn = s.spindleOn := by
  unfold linearClamp; split <;> rfl

theorem linearClamp_mode (s : MState) : (linearClamp s).mode = s.mode := by
  unfold linearClamp; split <;> rfl

theorem linearClamp_abs (s : MState) :
    (linearClamp s).absolutepositionmode = s.absolutepositionmode := by
  unfold linearClamp; split <;> rfl

theorem linearClamp_feedrate (s : MState) :
    (linearClamp s).feedrate = if s.feedrate > 1620 then 1620 else s.feedrate := by
  unfold linearClamp; split <;> rfl

theorem tryBody_linear_fault (dev : ℕ → Option String) (ws : List Word)
    (s : MState) (n : ℕ) (msg : String) (h : dev n = some msg) :
    tryBody dev ⟨.linearMove, ws⟩ s n =
      (linearClamp (applyWords s ws), n + 1, [], some (.serialExn msg)) := by
  unfold tryBody
  simp only [h]

theorem tryBody_linear_ok (dev : ℕ → Option String) (ws : List Word)
    (s : MState) (n : ℕ) (h : dev n = none) :
    tryBody dev ⟨.linearMove, ws⟩ s n =
      ({ linearClamp (applyWords s ws) with mode := .linear }, n + 1,
       [.g1 ((linearClamp (applyWords s ws)).posX + (linearClamp (applyWords s ws)).offsetX)
            ((linearClamp (applyWords s ws)).posY + (linearClamp (applyWords s ws)).offsetY)
            ((linearClamp (applyWords s ws)).posZ + (linearClamp (applyWords s ws)).offsetZ)
            (linearClamp (applyWords s ws)).feedrate],
       none) := by
  unfold tryBody
  simp only [h]

theorem executeGCode_linear_fault_then_ok (dev : ℕ → Option String)
    (ws : List Word) (s : MState) (n fuel : ℕ) (msg : String)
    (h0 : dev n = some msg) (h1 : dev (n + 1) = none) (h2 : dev (n + 2) = none) :
    executeGCode dev (fuel + 2) ⟨.linearMove, ws⟩ s n =
      some ({ retryState s ws with mode := .linear },
            if s.spindleOn then n + 3 else n + 2,
            (if s.spindleOn then [.restart, .spindle true] else [.restart]) ++
              [.g1 ((retryState s ws).posX + (retryState s ws).offsetX)
                   ((retryState s ws).posY + (retryState s ws).offsetY)
                   ((retryState s ws).posZ + (retryState s ws).offsetZ)
                   (retryState s ws).feedrate],
            none) := by
  have hsp : (recov (linearCallState s ws)).spindleOn = s.spindleOn := by
    show (linearCallState s ws).spindleOn = s.spindleOn
    rw [linearCallState, linearClamp_spindleOn, applyWords_spindleOn]
  show executeGCode dev (fuel + 1 + 1) ⟨.linearMove, ws⟩ s n = _
  rw [executeGCode, tryBody_linear_fault dev ws s n msg h0]
  show (let s₂ := recov (linearClamp (applyWords s ws));
        if s₂.spindleOn then _ else _) = _
  rw [show linearClamp (applyWords s ws) = linearCallState s ws from rfl]
  simp only [hsp]
  by_cases hs : s.spindleOn
  · simp only [hs, if_true, h1]
    show (match executeGCode dev (fuel + 1) ⟨.linearMove, ws⟩
            (recov (linearCallState s ws)) (n + 1 + 1) with
          | none => none
          | some (s₃, n₃, tr₃, e) => some (s₃, n₃, [] ++ [DevCmd.restart, DevCmd.spindle true] ++ tr₃, e)) = _
    rw [show n + 1 + 1 = n + 2 from rfl,
        executeGCode, tryBody_linear_ok dev ws (recov (linearCallState s ws)) (n + 2) h2]
    rfl
  · simp only [hs, if_false]
    show (match executeGCode dev (fuel + 1) ⟨.linearMove, ws⟩
            (recov (linearCallState s ws)) (n + 1) with
          | none => none
          | some (s₃, n₃, tr₃, e) => some (s₃, n₃, [] ++ [DevCmd.restart] ++ tr₃, e)) = _
    rw [executeGCode, tryBody_linear_ok dev ws (recov (linearCallState s ws)) (n + 1) h1]
    rfl

theorem toBytesLE_length (len m : ℕ) : (toBytesLE len m).length = len := by
  simp [toBytesLE]

theorem decodeNatLE_toBytesLE4 (m : ℕ) :
    decodeNatLE (toBytesLE 4 m) = m % 2 ^ 32 := by
  have h4 : List.range 4 = [0, 1, 2, 3] := rfl
  simp only [toBytesLE, h4, List.map_cons, List.map_nil, decodeNatLE,
    List.foldr_cons, List.foldr_nil]
  norm_num
  omega

theorem decodeNatLE_toBytesLE2 (m : ℕ) :
    decodeNatLE (toBytesLE 2 m) = m % 2 ^ 16 := by
  have h2 : List.range 2 = [0, 1] := rfl
  simp only [toBytesLE, h2, List.map_cons, List.map_nil, decodeNatLE,
    List.foldr_cons, List.foldr_nil]
  norm_num
  omega

theorem decodeSteps_toBytesLE (k : ℤ) (h1 : -(2 ^ 31) ≤ k) (h2 : k < 2 ^ 31) :
    decodeSteps (toBytesLE 4 ((k % (2 ^ 32 : ℤ)).toNat)) = k := by
  simp only [decodeSteps, decodeNatLE_toBytesLE4]
  split <;> omega

/-- Claim C4 (confirmed).  For every millimeter value `v`, `encodeValueMM`
quantizes `v` to hardware steps by truncating `v / 0.015` toward zero —
not rounding, and not flooring for negative values — and emits the step
count as 4 little-endian signed bytes; in particular `encodeValueMM 1.0`
encodes 66 steps and `encodeValueMM (-1.0)` encodes −66 steps. -/
theorem c4_encodePosition_truncation (v : ℚ) (bs : List ℕ)
    (h : encodeValueMM v = some bs) :
    decodeSteps bs = truncRat (v / (15 / 1000)) ∧
    bs.length = 4 ∧
    (∃ b1, encodeValueMM 1 = some b1 ∧ decodeSteps b1 = 66) ∧
    (∃ b2, encodeValueMM (-1) = some b2 ∧ decodeSteps b2 = -66) ∧
    truncRat ((1 : ℚ) / (15 / 1000)) ≠ round ((1 : ℚ) / (15 / 1000)) ∧
    truncRat ((-1 : ℚ) / (15 / 1000)) ≠ ⌊((-1 : ℚ) / (15 / 1000))⌋ := by
  have henc1 : encodeValueMM 1 = some [66, 0, 0, 0] := by
    norm_num [encodeValueMM, truncRat, toBytesLE, List.range_succ] <;> decide
  have henc2 : encodeValueMM (-1) = some [190, 255, 255, 255] := by
    norm_num [encodeValueMM, truncRat, toBytesLE, List.range_succ, Int.ceil_neg] <;> decide
  refine ⟨?_, ?_, ?_, ?_, ?_, ?_⟩
  · simp only [encodeValueMM] at h
    split at h
    · rename_i hrange
      rw [← Option.some_inj.mp h]
      exact decodeSteps_toBytesLE _ hrange.1 hrange.2
    · exact absurd h (by simp)
  · simp only [encodeValueMM] at h
    split at h
    · rw [← Option.some_inj.mp h, toBytesLE_length]
    · exact absurd h (by simp)
  · exact ⟨_, henc1, by norm_num [decodeSteps, decodeNatLE]⟩
  · exact ⟨_, henc2, by norm_num [decodeSteps, decodeNatLE]⟩
  · rw [show ((1 : ℚ) / (15 / 1000)) = 200 / 3 by norm_num, round_eq]
    norm_num [truncRat]
  · rw [show ((-1 : ℚ) / (15 / 1000)) = -(200 / 3) by norm_num]
    norm_num [truncRat, Int.ceil_neg]

/-- Witness for C4 at `v = 1`. -/
theorem c4_encodePosition_truncation_witness :
    encodeValueMM 1 = some [66, 0, 0, 0] ∧
    (decodeSteps [66, 0, 0, 0] = truncRat ((1 : ℚ) / (15 / 1000)) ∧
     ([66, 0, 0, 0] : List ℕ).length = 4 ∧
     (∃ b1, encodeValueMM 1 = some b1 ∧ decodeSteps b1 = 66) ∧
     (∃ b2, encodeValueMM (-1) = some b2 ∧ decodeSteps b2 = -66) ∧
     truncRat ((1 : ℚ) / (15 / 1000)) ≠ round ((1 : ℚ) / (15 / 1000)) ∧
     truncRat ((-1 : ℚ) / (15 / 1000)) ≠ ⌊((-1 : ℚ) / (15 / 1000))⌋) := by
  have h : encodeValueMM 1 = some [66, 0, 0, 0] := by
    norm_num [encodeValueMM, truncRat, toBytesLE, List.range_succ] <;> decide
  exact ⟨h, c4_encodePosition_truncation 1 [66, 0, 0, 0] h⟩

/-- Claim C3, counterexample.  The claim says `encodeFeedrate` computes
`round(3378400 / f)`; the source computes `int(3378400 / f)`, which
truncates.  At `f = 8443/5 = 1688.6` mm/min the quotient is
`2000.71...`: the code encodes 2000, rounding would encode 2001. -/
theorem c3_round_vs_trunc_counterexample :
    feedrateClipped (some (8443 / 5)) = 2000 ∧
    feedrateRoundedSpec (8443 / 5) = 2001 ∧
    feedrateClipped (some (8443 / 5)) ≠ feedrateRoundedSpec (8443 / 5) := by
  have h1 : feedrateClipped (some (8443 / 5)) = 2000 := by
    norm_num [feedrateClipped, feedrateRaw, truncRat, MAX_FEEDRATE, MIN_FEEDRATE]
  have h2 : feedrateRoundedSpec (8443 / 5) = 2001 := by
    rw [feedrateRoundedSpec, round_eq]
    norm_num
  exact ⟨h1, h2, by rw [h1, h2]; norm_num⟩

/-- Claim C3 (corrected).  Amended claim: for every positive finite feed
rate `f`, `encodeFeedrate` computes `int(3378400 / f)` — truncation
toward zero, not rounding — and clamps the result into the inclusive
range `[1250, 62500]` before emitting it as 2 little-endian unsigned
bytes, so the encoded value always satisfies `1250 ≤ value ≤ 62500`;
an infinite feed rate (used for rapid moves) encodes to exactly 1250. -/
theorem c3_feedrate_clamp_range (f : ℚ) (_h : 0 < f) :
    MAX_FEEDRATE ≤ feedrateClipped (some f) ∧
    feedrateClipped (some f) ≤ MIN_FEEDRATE ∧
    feedrateClipped none = MAX_FEEDRATE ∧
    (decodeNatLE (encodeFeedrate (some f)) : ℤ) = feedrateClipped (some f) ∧
    (encodeFeedrate (some f)).length = 2 := by
  have lo : MAX_FEEDRATE ≤ feedrateClipped (some f) :=
    le_min (le_max_right _ _) (by norm_num [MAX_FEEDRATE, MIN_FEEDRATE])
  have hi : feedrateClipped (some f) ≤ MIN_FEEDRATE := min_le_right _ _
  refine ⟨lo, hi, ?_, ?_, toBytesLE_length _ _⟩
  · norm_num [feedrateClipped, feedrateRaw, MAX_FEEDRATE, MIN_FEEDRATE]
  · rw [encodeFeedrate, decodeNatLE_toBytesLE2]
    rw [MAX_FEEDRATE] at lo
    rw [MIN_FEEDRATE] at hi
    omega

/-- Witness for C3 at `f = 300`. -/
theorem c3_feedrate_clamp_range_witness :
    (0 : ℚ) < 300 ∧
    (MAX_FEEDRATE ≤ feedrateClipped (some 300) ∧
     feedrateClipped (some 300) ≤ MIN_FEEDRATE ∧
     feedrateClipped none = MAX_FEEDRATE ∧
     (decodeNatLE (encodeFeedrate (some 300)) : ℤ) = feedrateClipped (some 300) ∧
     (encodeFeedrate (some 300)).length = 2) :=
  ⟨by norm_num, c3_feedrate_clamp_range 300 (by norm_num)⟩

theorem executeCommandRun_ok (acks : ℕ → ℕ) (count : ℕ) (h : acks count = 2) :
    executeCommandRun acks count = (1, Except.ok ()) := by
  unfold executeCommandRun
  rw [if_pos h]

theorem executeCommandRun_retry (acks : ℕ → ℕ) (count : ℕ)
    (h : acks count ≠ 2) (hc : count < 2) :
    executeCommandRun acks count =
      (1 + (executeCommandRun acks (count + 1)).1,
       (executeCommandRun acks (count + 1)).2) := by
  conv_lhs => rw [executeCommandRun]
  rw [if_neg h, dif_pos hc]

theorem executeCommandRun_fail (acks : ℕ → ℕ) (h : acks 2 ≠ 2) :
    executeCommandRun acks 2 = (1, Except.error "wrong response from device") := by
  unfold executeCommandRun
  rw [if_neg h, dif_neg (by norm_num)]

theorem executeCommandRun_three_mismatch (acks : ℕ → ℕ)
    (h0 : acks 0 ≠ 2) (h1 : acks 1 ≠ 2) (h2 : acks 2 ≠ 2) :
    executeCommandRun acks 0 = (3, Except.error "wrong response from device") := by
  rw [executeCommandRun_retry acks 0 h0 (by norm_num),
      executeCommandRun_retry acks 1 h1 (by norm_num),
      executeCommandRun_fail acks h2]
  rfl

theorem executeCommandRun_sends_le (acks : ℕ → ℕ) :
    (executeCommandRun acks 0).1 ≤ 3 := by
  by_cases e0 : acks 0 = 2
  · rw [executeCommandRun_ok acks 0 e0]; norm_num
  · rw [executeCommandRun_retry acks 0 e0 (by norm_num)]
    by_cases e1 : acks 1 = 2
    · rw [executeCommandRun_ok acks 1 e1]; norm_num
    · rw [executeCommandRun_retry acks 1 e1 (by norm_num)]
      by_cases e2 : acks 2 = 2
      · rw [executeCommandRun_ok acks 2 e2]; norm_num
      · rw [executeCommandRun_fail acks e2]; norm_num

/-- Claim C6 (confirmed).  When the 1-byte acknowledgement read after a
transmission differs from the accepted marker `0x02`, `executeCommand`
re-sends the same frame at most 2 more times; three consecutive
mismatches transmit the frame exactly 3 times and raise
`serial.SerialException("wrong response from device")`. -/
theorem c6_ack_retry_policy (acks : ℕ → ℕ) (h : ∀ i, i < 3 → acks i ≠ 2) :
    executeCommandRun acks 0 = (3, Except.error "wrong response from device") ∧
    ∀ bs : ℕ → ℕ, (executeCommandRun bs 0).1 ≤ 3 :=
  ⟨executeCommandRun_three_mismatch acks (h 0 (by norm_num)) (h 1 (by norm_num))
      (h 2 (by norm_num)),
   fun bs => executeCommandRun_sends_le bs⟩

/-- Witness for C6: every acknowledgement byte is `0x00`. -/
theorem c6_ack_retry_policy_witness :
    (∀ i, i < 3 → (fun _ => 0 : ℕ → ℕ) i ≠ 2) ∧
    (executeCommandRun (fun _ => 0) 0 = (3, Except.error "wrong response from device") ∧
     ∀ bs : ℕ → ℕ, (executeCommandRun bs 0).1 ≤ 3) :=
  ⟨by decide, c6_ack_retry_policy (fun _ => 0) (by decide)⟩

/-- Claim C5, counterexample.  The claim says that in Incremental mode the
value of an F word is *added* to the feed rate; the source
(line 276-277) *replaces* the feed rate in both distance modes.
Starting from the initial state (feed rate 300) switched to incremental
mode, applying `F100` yields feed rate 100, not 300 + 100 = 400. -/
theorem c5_incremental_F_counterexample :
    (applyWord { initialState with absolutepositionmode := false }
        ⟨Letter.F, 100⟩).feedrate = 100 ∧
    initialState.feedrate + 100 = 400 ∧ (100 : ℚ) ≠ 400 := by
  refine ⟨rfl, ?_, by norm_num⟩
  show (300 : ℚ) + 100 = 400
  norm_num

/-- Claim C5 (corrected).  Amended claim: for each of the letters X, Y
and Z, `applyWord` replaces the corresponding position field in
Absolute mode and adds the word's value to it in Incremental mode
(X10 then X−3 yields X = start + 7 incrementally, X = −3 absolutely);
the F word *replaces* the feed rate in both modes. -/
theorem c5_applyWord_distance_modes (s : MState) (v : ℚ) :
    (applyWord { s with absolutepositionmode := false } ⟨Letter.F, v⟩).feedrate = v ∧
    (applyWord { s with absolutepositionmode := true } ⟨Letter.F, v⟩).feedrate = v ∧
    (applyWord { s with absolutepositionmode := false } ⟨Letter.X, v⟩).posX = s.posX + v ∧
    (applyWord { s with absolutepositionmode := true } ⟨Letter.X, v⟩).posX = v ∧
    (applyWord { s with absolutepositionmode := false } ⟨Letter.Y, v⟩).posY = s.posY + v ∧
    (applyWord { s with absolutepositionmode := true } ⟨Letter.Y, v⟩).posY = v ∧
    (applyWord { s with absolutepositionmode := false } ⟨Letter.Z, v⟩).posZ = s.posZ + v ∧
    (applyWord { s with absolutepositionmode := true } ⟨Letter.Z, v⟩).posZ = v ∧
    (applyWord (applyWord { s with absolutepositionmode := false } ⟨Letter.X, 10⟩)
        ⟨Letter.X, -3⟩).posX = s.posX + 7 ∧
    (applyWord (applyWord { s with absolutepositionmode := true } ⟨Letter.X, 10⟩)
        ⟨Letter.X, -3⟩).posX = -3 := by
  refine ⟨rfl, rfl, rfl, rfl, rfl, rfl, rfl, rfl, ?_, rfl⟩
  show s.posX + 10 + -3 = s.posX + 7
  ring

theorem applyWords_posX_abs (s t : MState) (ws : List Word)
    (hs : s.absolutepositionmode = true) (ht : t.absolutepositionmode = true) :
    (applyWords s ws).posX = (applyWords t ws).posX ∨
    ((applyWords s ws).posX = s.posX ∧ (applyWords t ws).posX = t.posX) := by
  induction ws generalizing s t with
  | nil => exact Or.inr ⟨rfl, rfl⟩
  | cons w ws ih =>
      rw [applyWords_cons, applyWords_cons]
      have hs' : (applyWord s w).absolutepositionmode = true := by
        rw [applyWord_abs]; exact hs
      have ht' : (applyWord t w).absolutepositionmode = true := by
        rw [applyWord_abs]; exact ht
      rcases w with ⟨l, v⟩
      cases l with
      | X =>
          rcases ih (applyWord s ⟨.X, v⟩) (applyWord t ⟨.X, v⟩) hs' ht' with h | ⟨h1, h2⟩
          · exact Or.inl h
          · refine Or.inl ?_
            rw [h1, h2]
            simp [applyWord, hs, ht]
      | Y =>
          rcases ih _ _ hs' ht' with h | ⟨h1, h2⟩
          · exact Or.inl h
          · exact Or.inr ⟨by rw [h1]; simp [applyWord, hs], by rw [h2]; simp [applyWord, ht]⟩
      | Z =>
          rcases ih _ _ hs' ht' with h | ⟨h1, h2⟩
          · exact Or.inl h
          · exact Or.inr ⟨by rw [h1]; simp [applyWord, hs], by rw [h2]; simp [applyWord, ht]⟩
      | F =>
          rcases ih _ _ hs' ht' with h | ⟨h1, h2⟩
          · exact Or.inl h
          · exact Or.inr ⟨by rw [h1]; simp [applyWord, hs], by rw [h2]; simp [applyWord, ht]⟩
      | other =>
          rcases ih _ _ hs' ht' with h | ⟨h1, h2⟩
          · exact Or.inl h
          · exact Or.inr ⟨by rw [h1]; simp [applyWord, hs], by rw [h2]; simp [applyWord, ht]⟩

theorem applyWords_posY_abs (s t : MState) (ws : List Word)
    (hs : s.absolutepositionmode = true) (ht : t.absolutepositionmode = true) :
    (applyWords s ws).posY = (applyWords t ws).posY ∨
    ((applyWords s ws).posY = s.posY ∧ (applyWords t ws).posY = t.posY) := by
  induction ws generalizing s t with
  | nil => exact Or.inr ⟨rfl, rfl⟩
  | cons w ws ih =>
      rw [applyWords_cons, applyWords_cons]
      have hs' : (applyWord s w).absolutepositionmode = true := by
        rw [applyWord_abs]; exact hs
      have ht' : (applyWord t w).absolutepositionmode = true := by
        rw [applyWord_abs]; exact ht
      rcases w with ⟨l, v⟩
      cases l with
      | Y =>
          rcases ih (applyWord s ⟨.Y, v⟩) (applyWord t ⟨.Y, v⟩) hs' ht' with h | ⟨h1, h2⟩
          · exact Or.inl h
          · refine Or.inl ?_
            rw [h1, h2]
            simp [applyWord, hs, ht]
      | X =>
          rcases ih _ _ hs' ht' with h | ⟨h1, h2⟩
          · exact Or.inl h
          · exact Or.inr ⟨by rw [h1]; simp [applyWord, hs], by rw [h2]; simp [applyWord, ht]⟩
      | Z =>
          rcases ih _ _ hs' ht' with h | ⟨h1, h2⟩
          · exact Or.inl h
          · exact Or.inr ⟨by rw [h1]; simp [applyWord, hs], by rw [h2]; simp [applyWord, ht]⟩
      | F =>
          rcases ih _ _ hs' ht' with h | ⟨h1, h2⟩
          · exact Or.inl h
          · exact Or.inr ⟨by rw [h1]; simp [applyWord, hs], by rw [h2]; simp [applyWord, ht]⟩
      | other =>
          rcases ih _ _ hs' ht' with h | ⟨h1, h2⟩
          · exact Or.inl h
          · exact Or.inr ⟨by rw [h1]; simp [applyWord, hs], by rw [h2]; simp [applyWord, ht]⟩

theorem applyWords_posZ_abs (s t : MState) (ws : List Word)
    (hs : s.absolutepositionmode = true) (ht : t.absolutepositionmode = true) :
    (applyWords s ws).posZ = (applyWords t ws).posZ ∨
    ((applyWords s ws).posZ = s.posZ ∧ (applyWords t ws).posZ = t.posZ) := by
  induction ws generalizing s t with
  | nil => exact Or.inr ⟨rfl, rfl⟩
  | cons w ws ih =>
      rw [applyWords_cons, applyWords_cons]
      have hs' : (applyWord s w).absolutepositionmode = true := by
        rw [applyWord_abs]; exact hs
      have ht' : (applyWord t w).absolutepositionmode = true := by
        rw [applyWord_abs]; exact ht
      rcases w with ⟨l, v⟩
      cases l with
      | Z =>
          rcases ih (applyWord s ⟨.Z, v⟩) (applyWord t ⟨.Z, v⟩) hs' ht' with h | ⟨h1, h2⟩
          · exact Or.inl h
          · refine Or.inl ?_
            rw [h1, h2]
            simp [applyWord, hs, ht]
      | X =>
          rcases ih _ _ hs' ht' with h | ⟨h1, h2⟩
          · exact Or.inl h
          · exact Or.inr ⟨by rw [h1]; simp [applyWord, hs], by rw [h2]; simp [applyWord, ht]⟩
      | Y =>
          rcases ih _ _ hs' ht' with h | ⟨h1, h2⟩
          · exact Or.inl h
          · exact Or.inr ⟨by rw [h1]; simp [applyWord, hs], by rw [h2]; simp [applyWord, ht]⟩
      | F =>
          rcases ih _ _ hs' ht' with h | ⟨h1, h2⟩
          · exact Or.inl h
          · exact Or.inr ⟨by rw [h1]; simp [applyWord, hs], by rw [h2]; simp [applyWord, ht]⟩
      | other =>
          rcases ih _ _ hs' ht' with h | ⟨h1, h2⟩
          · exact Or.inl h
          · exact Or.inr ⟨by rw [h1]; simp [applyWord, hs], by rw [h2]; simp [applyWord, ht]⟩

theorem retryState_offsetX (s : MState) (ws : List Word) :
    (retryState s ws).offsetX = -(linearCallState s ws).posX := by
  rw [retryState, linearClamp_offsetX, applyWords_offsetX]
  rfl

theorem retryState_offsetY (s : MState) (ws : List Word) :
    (retryState s ws).offsetY = -(linearCallState s ws).posY := by
  rw [retryState, linearClamp_offsetY, applyWords_offsetY]
  rfl

theorem retryState_offsetZ (s : MState) (ws : List Word) :
    (retryState s ws).offsetZ = -(linearCallState s ws).posZ := by
  rw [retryState, linearClamp_offsetZ, applyWords_offsetZ]
  rfl

theorem recov_abs (s : MState) :
    (recov s).absolutepositionmode = s.absolutepositionmode := rfl

theorem linearCallState_abs (s : MState) (ws : List Word) :
    (linearCallState s ws).absolutepositionmode = s.absolutepositionmode := by
  rw [linearCallState, linearClamp_abs, applyWords_abs]

theorem retryState_posX_abs (s : MState) (ws : List Word)
    (hs : s.absolutepositionmode = true) :
    (retryState s ws).posX = (linearCallState s ws).posX := by
  have habs : (recov (linearCallState s ws)).absolutepositionmode = true := by
    rw [recov_abs, linearCallState_abs]; exact hs
  rw [retryState, linearClamp_posX]
  rcases applyWords_posX_abs s (recov (linearCallState s ws)) ws hs habs with h | ⟨h1, h2⟩
  · rw [← h, linearCallState, linearClamp_posX]
  · rw [h2]
    show (linearCallState s ws).posX = _
    rfl

theorem retryState_posY_abs (s : MState) (ws : List Word)
    (hs : s.absolutepositionmode = true) :
    (retryState s ws).posY = (linearCallState s ws).posY := by
  have habs : (recov (linearCallState s ws)).absolutepositionmode = true := by
    rw [recov_abs, linearCallState_abs]; exact hs
  rw [retryState, linearClamp_posY]
  rcases applyWords_posY_abs s (recov (linearCallState s ws)) ws hs habs with h | ⟨h1, h2⟩
  · rw [← h, linearCallState, linearClamp_posY]
  · rw [h2]
    show (linearCallState s ws).posY = _
    rfl

theorem retryState_posZ_abs (s : MState) (ws : List Word)
    (hs : s.absolutepositionmode = true) :
    (retryState s ws).posZ = (linearCallState s ws).posZ := by
  have habs : (recov (linearCallState s ws)).absolutepositionmode = true := by
    rw [recov_abs, linearCallState_abs]; exact hs
  rw [retryState, linearClamp_posZ]
  rcases applyWords_posZ_abs s (recov (linearCallState s ws)) ws hs habs with h | ⟨h1, h2⟩
  · rw [← h, linearCallState, linearClamp_posZ]
  · rw [h2]
    show (linearCallState s ws).posZ = _
    rfl

theorem stateAtDevCall_posX (k : GCodeKind) (ws : List Word) (s : MState) :
    (stateAtDevCall k ws s).posX = (applyWords s ws).posX := by
  cases k <;> simp [stateAtDevCall, linearClamp_posX]

theorem stateAtDevCall_posY (k : GCodeKind) (ws : List Word) (s : MState) :
    (stateAtDevCall k ws s).posY = (applyWords s ws).posY := by
  cases k <;> simp [stateAtDevCall, linearClamp_posY]

theorem stateAtDevCall_posZ (k : GCodeKind) (ws : List Word) (s : MState) :
    (stateAtDevCall k ws s).posZ = (applyWords s ws).posZ := by
  cases k <;> simp [stateAtDevCall, linearClamp_posZ]

theorem stateAtDevCall_offsetX (k : GCodeKind) (ws : List Word) (s : MState) :
    (stateAtDevCall k ws s).offsetX = s.offsetX := by
  cases k <;> simp [stateAtDevCall, linearClamp_offsetX, applyWords_offsetX]

theorem stateAtDevCall_offsetY (k : GCodeKind) (ws : List Word) (s : MState) :
    (stateAtDevCall k ws s).offsetY = s.offsetY := by
  cases k <;> simp [stateAtDevCall, linearClamp_offsetY, applyWords_offsetY]

theorem stateAtDevCall_offsetZ (k : GCodeKind) (ws : List Word) (s : MState) :
    (stateAtDevCall k ws s).offsetZ = s.offsetZ := by
  cases k <;> simp [stateAtDevCall, linearClamp_offsetZ, applyWords_offsetZ]

theorem stateAtDevCall_spindleOn (k : GCodeKind) (ws : List Word) (s : MState) :
    (stateAtDevCall k ws s).spindleOn = s.spindleOn := by
  cases k <;> simp [stateAtDevCall, linearClamp_spindleOn, applyWords_spindleOn]

theorem stateAtDevCall_abs (k : GCodeKind) (ws : List Word) (s : MState) :
    (stateAtDevCall k ws s).absolutepositionmode = s.absolutepositionmode := by
  cases k <;> simp [stateAtDevCall, linearClamp_abs, applyWords_abs]

theorem tryBody_dev_fault (dev : ℕ → Option String) (k : GCodeKind)
    (ws : List Word) (s : MState) (n : ℕ) (msg : String)
    (hk : sendsDeviceCommand k = true) (h : dev n = some msg) :
    tryBody dev ⟨k, ws⟩ s n =
      (stateAtDevCall k ws s, n + 1, [], some (.serialExn msg)) := by
  cases k with
  | rapidMove => unfold tryBody stateAtDevCall; simp [h]
  | linearMove => unfold tryBody stateAtDevCall; simp [h]
  | startSpindleCW => unfold tryBody stateAtDevCall; simp [h]
  | startSpindleCCW => unfold tryBody stateAtDevCall; simp [h]
  | stopSpindle => unfold tryBody stateAtDevCall; simp [h]
  | feedRate w => simp [sendsDeviceCommand] at hk
  | arcMoveCW => simp [sendsDeviceCommand] at hk
  | arcMoveCCW => simp [sendsDeviceCommand] at hk
  | selectXYPlane => simp [sendsDeviceCommand] at hk
  | selectZXPlane => simp [sendsDeviceCommand] at hk
  | selectYZPlane => simp [sendsDeviceCommand] at hk
  | useInches => simp [sendsDeviceCommand] at hk
  | useMillimeters => simp [sendsDeviceCommand] at hk
  | absoluteDistanceMode => simp [sendsDeviceCommand] at hk
  | incrementalDistanceMode => simp [sendsDeviceCommand] at hk
  | unitsPerMinuteMode => simp [sendsDeviceCommand] at hk
  | coolantOff => simp [sendsDeviceCommand] at hk
  | unsupported => simp [sendsDeviceCommand] at hk

theorem tryBody_dev_ok (dev : ℕ → Option String) (k : GCodeKind)
    (ws : List Word) (s : MState) (n : ℕ)
    (hk : sendsDeviceCommand k = true) (h : dev n = none) :
    tryBody dev ⟨k, ws⟩ s n =
      (postDevState k (stateAtDevCall k ws s), n + 1,
       (devCmdOf k (stateAtDevCall k ws s)).toList, none) := by
  cases k with
  | rapidMove => unfold tryBody stateAtDevCall postDevState devCmdOf; simp [h]
  | linearMove => unfold tryBody stateAtDevCall postDevState devCmdOf; simp [h]
  | startSpindleCW => unfold tryBody stateAtDevCall postDevState devCmdOf; simp [h]
  | startSpindleCCW => unfold tryBody stateAtDevCall postDevState devCmdOf; simp [h]
  | stopSpindle => unfold tryBody stateAtDevCall postDevState devCmdOf; simp [h]
  | feedRate w => simp [sendsDeviceCommand] at hk
  | arcMoveCW => simp [sendsDeviceCommand] at hk
  | arcMoveCCW => simp [sendsDeviceCommand] at hk
  | selectXYPlane => simp [sendsDeviceCommand] at hk
  | selectZXPlane => simp [sendsDeviceCommand] at hk
  | selectYZPlane => simp [sendsDeviceCommand] at hk
  | useInches => simp [sendsDeviceCommand] at hk
  | useMillimeters => simp [sendsDeviceCommand] at hk
  | absoluteDistanceMode => simp [sendsDeviceCommand] at hk
  | incrementalDistanceMode => simp [sendsDeviceCommand] at hk
  | unitsPerMinuteMode => simp [sendsDeviceCommand] at hk
  | coolantOff => simp [sendsDeviceCommand] at hk
  | unsupported => simp [sendsDeviceCommand] at hk

theorem executeGCode_dev_fault_then_ok (dev : ℕ → Option String) (k : GCodeKind)
    (ws : List Word) (s : MState) (n fuel : ℕ) (msg : String)
    (hk : sendsDeviceCommand k = true)
    (h0 : dev n = some msg) (h1 : dev (n + 1) = none) (h2 : dev (n + 2) = none) :
    executeGCode dev (fuel + 2) ⟨k, ws⟩ s n =
      some (postDevState k (reattemptState k ws s),
            if s.spindleOn then n + 3 else n + 2,
            (if s.spindleOn then [.restart, .spindle true] else [.restart]) ++
              (devCmdOf k (reattemptState k ws s)).toList,
            none) := by
  have hsp : (recov (stateAtDevCall k ws s)).spindleOn = s.spindleOn := by
    show (stateAtDevCall k ws s).spindleOn = s.spindleOn
    rw [stateAtDevCall_spindleOn]
  show executeGCode dev (fuel + 1 + 1) ⟨k, ws⟩ s n = _
  rw [executeGCode, tryBody_dev_fault dev k ws s n msg hk h0]
  show (let s₂ := recov (stateAtDevCall k ws s);
        if s₂.spindleOn then _ else _) = _
  simp only [hsp]
  by_cases hs : s.spindleOn
  · simp only [hs, if_true, h1]
    show (match executeGCode dev (fuel + 1) ⟨k, ws⟩
            (recov (stateAtDevCall k ws s)) (n + 1 + 1) with
          | none => none
          | some (s₃, n₃, tr₃, e) =>
              some (s₃, n₃, [] ++ [DevCmd.restart, DevCmd.spindle true] ++ tr₃, e)) = _
    rw [show n + 1 + 1 = n + 2 from rfl, executeGCode,
        tryBody_dev_ok dev k ws (recov (stateAtDevCall k ws s)) (n + 2) hk h2]
    rfl
  · simp only [hs, if_false]
    show (match executeGCode dev (fuel + 1) ⟨k, ws⟩
            (recov (stateAtDevCall k ws s)) (n + 1) with
          | none => none
          | some (s₃, n₃, tr₃, e) => some (s₃, n₃, [] ++ [DevCmd.restart] ++ tr₃, e)) = _
    rw [executeGCode, tryBody_dev_ok dev k ws (recov (stateAtDevCall k ws s)) (n + 1) hk h1]
    rfl

theorem reattemptState_offsetX (k : GCodeKind) (ws : List Word) (s : MState) :
    (reattemptState k ws s).offsetX = -(stateAtDevCall k ws s).posX := by
  rw [reattemptState, stateAtDevCall_offsetX]
  rfl

theorem reattemptState_offsetY (k : GCodeKind) (ws : List Word) (s : MState) :
    (reattemptState k ws s).offsetY = -(stateAtDevCall k ws s).posY := by
  rw [reattemptState, stateAtDevCall_offsetY]
  rfl

theorem reattemptState_offsetZ (k : GCodeKind) (ws : List Word) (s : MState) :
    (reattemptState k ws s).offsetZ = -(stateAtDevCall k ws s).posZ := by
  rw [reattemptState, stateAtDevCall_offsetZ]
  rfl

theorem reattemptState_posX_abs (k : GCodeKind) (ws : List Word) (s : MState)
    (hs : s.absolutepositionmode = true) :
    (reattemptState k ws s).posX = (stateAtDevCall k ws s).posX := by
  have habs : (recov (stateAtDevCall k ws s)).absolutepositionmode = true := by
    rw [recov_abs, stateAtDevCall_abs]; exact hs
  rw [reattemptState, stateAtDevCall_posX]
  rcases applyWords_posX_abs s (recov (stateAtDevCall k ws s)) ws hs habs with h | ⟨h1, h2⟩
  · rw [← h, stateAtDevCall_posX]
  · rw [h2]
    show (stateAtDevCall k ws s).posX = _
    rfl

theorem reattemptState_posY_abs (k : GCodeKind) (ws : List Word) (s : MState)
    (hs : s.absolutepositionmode = true) :
    (reattemptState k ws s).posY = (stateAtDevCall k ws s).posY := by
  have habs : (recov (stateAtDevCall k ws s)).absolutepositionmode = true := by
    rw [recov_abs, stateAtDevCall_abs]; exact hs
  rw [reattemptState, stateAtDevCall_posY]
  rcases applyWords_posY_abs s (recov (stateAtDevCall k ws s)) ws hs habs with h | ⟨h1, h2⟩
  · rw [← h, stateAtDevCall_posY]
  · rw [h2]
    show (stateAtDevCall k ws s).posY = _
    rfl

theorem reattemptState_posZ_abs (k : GCodeKind) (ws : List Word) (s : MState)
    (hs : s.absolutepositionmode = true) :
    (reattemptState k ws s).posZ = (stateAtDevCall k ws s).posZ := by
  have habs : (recov (stateAtDevCall k ws s)).absolutepositionmode = true := by
    rw [recov_abs, stateAtDevCall_abs]; exact hs
  rw [reattemptState, stateAtDevCall_posZ]
  rcases applyWords_posZ_abs s (recov (stateAtDevCall k ws s)) ws hs habs with h | ⟨h1, h2⟩
  · rw [← h, stateAtDevCall_posZ]
  · rw [h2]
    show (stateAtDevCall k ws s).posZ = _
    rfl

/-- Claim C1 (confirmed).  For every command whose dispatch executes a
device command — rapid move, linear move, spindle on CW, spindle on
CCW, spindle stop: exactly the dispatch branches that can raise a
transport error — when that device call raises one and the subsequent
device calls succeed, `executeGCode` restarts the Transport Session,
sets `offset := -pos` on all three axes at the fault-time state,
reissues spindle-on when the spindle state was on before the fault, and
re-attempts the same gcode; the re-attempted position command transmits
`logicalPosition + offset` with `offset = -logicalPositionAtFaultTime`
(so in absolute mode the transmitted coordinates are 0: the
freshly-reset device treats its current location as machine-zero). -/
theorem c1_transport_fault_recovery (dev : ℕ → Option String) (k : GCodeKind)
    (ws : List Word) (s : MState) (n fuel : ℕ) (msg : String)
    (hk : sendsDeviceCommand k = true)
    (h0 : dev n = some msg) (h1 : dev (n + 1) = none) (h2 : dev (n + 2) = none) :
    executeGCode dev (fuel + 2) ⟨k, ws⟩ s n =
      some (postDevState k (reattemptState k ws s),
            if s.spindleOn then n + 3 else n + 2,
            (if s.spindleOn then [.restart, .spindle true] else [.restart]) ++
              (devCmdOf k (reattemptState k ws s)).toList,
            none) ∧
    (reattemptState k ws s).offsetX = -(stateAtDevCall k ws s).posX ∧
    (reattemptState k ws s).offsetY = -(stateAtDevCall k ws s).posY ∧
    (reattemptState k ws s).offsetZ = -(stateAtDevCall k ws s).posZ ∧
    (k = GCodeKind.rapidMove →
      devCmdOf k (reattemptState k ws s) =
        some (.g0 ((reattemptState k ws s).posX + (reattemptState k ws s).offsetX)
                  ((reattemptState k ws s).posY + (reattemptState k ws s).offsetY)
                  ((reattemptState k ws s).posZ + (reattemptState k ws s).offsetZ))) ∧
    (k = GCodeKind.linearMove →
      devCmdOf k (reattemptState k ws s) =
        some (.g1 ((reattemptState k ws s).posX + (reattemptState k ws s).offsetX)
                  ((reattemptState k ws s).posY + (reattemptState k ws s).offsetY)
                  ((reattemptState k ws s).posZ + (reattemptState k ws s).offsetZ)
                  (reattemptState k ws s).feedrate)) ∧
    (s.absolutepositionmode = true →
      (reattemptState k ws s).posX + (reattemptState k ws s).offsetX = 0 ∧
      (reattemptState k ws s).posY + (reattemptState k ws s).offsetY = 0 ∧
      (reattemptState k ws s).posZ + (reattemptState k ws s).offsetZ = 0) := by
  refine ⟨executeGCode_dev_fault_then_ok dev k ws s n fuel msg hk h0 h1 h2,
    reattemptState_offsetX k ws s, reattemptState_offsetY k ws s,
    reattemptState_offsetZ k ws s, ?_, ?_, fun hs => ?_⟩
  · rintro rfl
    rfl
  · rintro rfl
    rfl
  · refine ⟨?_, ?_, ?_⟩
    · rw [reattemptState_offsetX, reattemptState_posX_abs k ws s hs]; ring
    · rw [reattemptState_offsetY, reattemptState_posY_abs k ws s hs]; ring
    · rw [reattemptState_offsetZ, reattemptState_posZ_abs k ws s hs]; ring

/-- Witness for C1: single fault on a rapid move `G0 X5` from the
initial state. -/
theorem c1_transport_fault_recovery_witness :
    sendsDeviceCommand GCodeKind.rapidMove = true ∧
    oneFaultDev 0 = some "device not responding" ∧
    oneFaultDev (0 + 1) = none ∧ oneFaultDev (0 + 2) = none ∧
    (executeGCode oneFaultDev (0 + 2) ⟨GCodeKind.rapidMove, [⟨Letter.X, 5⟩]⟩ initialState 0 =
      some (postDevState GCodeKind.rapidMove
              (reattemptState GCodeKind.rapidMove [⟨Letter.X, 5⟩] initialState),
            if initialState.spindleOn then 0 + 3 else 0 + 2,
            (if initialState.spindleOn then [.restart, .spindle true] else [.restart]) ++
              (devCmdOf GCodeKind.rapidMove
                (reattemptState GCodeKind.rapidMove [⟨Letter.X, 5⟩] initialState)).toList,
            none) ∧
     (reattemptState GCodeKind.rapidMove [⟨Letter.X, 5⟩] initialState).offsetX =
        -(stateAtDevCall GCodeKind.rapidMove [⟨Letter.X, 5⟩] initialState).posX ∧
     (reattemptState GCodeKind.rapidMove [⟨Letter.X, 5⟩] initialState).offsetY =
        -(stateAtDevCall GCodeKind.rapidMove [⟨Letter.X, 5⟩] initialState).posY ∧
     (reattemptState GCodeKind.rapidMove [⟨Letter.X, 5⟩] initialState).offsetZ =
        -(stateAtDevCall GCodeKind.rapidMove [⟨Letter.X, 5⟩] initialState).posZ ∧
     (GCodeKind.rapidMove = GCodeKind.rapidMove →
       devCmdOf GCodeKind.rapidMove
           (reattemptState GCodeKind.rapidMove [⟨Letter.X, 5⟩] initialState) =
         some (.g0 ((reattemptState GCodeKind.rapidMove [⟨Letter.X, 5⟩] initialState).posX +
                      (reattemptState GCodeKind.rapidMove [⟨Letter.X, 5⟩] initialState).offsetX)
                   ((reattemptState GCodeKind.rapidMove [⟨Letter.X, 5⟩] initialState).posY +
                      (reattemptState GCodeKind.rapidMove [⟨Letter.X, 5⟩] initialState).offsetY)
                   ((reattemptState GCodeKind.rapidMove [⟨Letter.X, 5⟩] initialState).posZ +
                      (reattemptState GCodeKind.rapidMove [⟨Letter.X, 5⟩] initialState).offsetZ))) ∧
     (GCodeKind.rapidMove = GCodeKind.linearMove →
       devCmdOf GCodeKind.rapidMove
           (reattemptState GCodeKind.rapidMove [⟨Letter.X, 5⟩] initialState) =
         some (.g1 ((reattemptState GCodeKind.rapidMove [⟨Letter.X, 5⟩] initialState).posX +
                      (reattemptState GCodeKind.rapidMove [⟨Letter.X, 5⟩] initialState).offsetX)
                   ((reattemptState GCodeKind.rapidMove [⟨Letter.X, 5⟩] initialState).posY +
                      (reattemptState GCodeKind.rapidMove [⟨Letter.X, 5⟩] initialState).offsetY)
                   ((reattemptState GCodeKind.rapidMove [⟨Letter.X, 5⟩] initialState).posZ +
                      (reattemptState GCodeKind.rapidMove [⟨Letter.X, 5⟩] initialState).offsetZ)
                   (reattemptState GCodeKind.rapidMove [⟨Letter.X, 5⟩] initialState).feedrate)) ∧
     (initialState.absolutepositionmode = true →
       (reattemptState GCodeKind.rapidMove [⟨Letter.X, 5⟩] initialState).posX +
          (reattemptState GCodeKind.rapidMove [⟨Letter.X, 5⟩] initialState).offsetX = 0 ∧
       (reattemptState GCodeKind.rapidMove [⟨Letter.X, 5⟩] initialState).posY +
          (reattemptState GCodeKind.rapidMove [⟨Letter.X, 5⟩] initialState).offsetY = 0 ∧
       (reattemptState GCodeKind.rapidMove [⟨Letter.X, 5⟩] initialState).posZ +
          (reattemptState GCodeKind.rapidMove [⟨Letter.X, 5⟩] initialState).offsetZ = 0)) :=
  ⟨rfl, rfl, rfl, rfl,
   c1_transport_fault_recovery oneFaultDev GCodeKind.rapidMove [⟨Letter.X, 5⟩]
     initialState 0 0 "device not responding" rfl rfl rfl rfl⟩

/-- Claim C2, counterexample.  The claim says the protocol error raised
after exhausting acknowledgement retries is surfaced past the Modal
Translator and never handled by the transport-fault recovery path.  In
the source it is a `serial.SerialException` (line 147), which is exactly
what `executeGCode`'s handler catches (line 340): with the executor
failing once with that very error, `executeGCode` returns normally
(no exception surfaced) after a session restart and a re-attempt. -/
theorem c2_protocol_error_counterexample :
    executeCommandRun (fun _ => 0) 0 = (3, Except.error "wrong response from device") ∧
    ∃ r : MState × ℕ × List DevCmd × Option PyErr,
      executeGCode wrongRespDev 2 ⟨.linearMove, [⟨Letter.X, 4⟩]⟩ initialState 0 = some r ∧
      r.2.2.2 = none ∧
      r.2.2.1 = [DevCmd.restart, DevCmd.g1 0 0 0 300] := by
  refine ⟨executeCommandRun_three_mismatch _ (by decide) (by decide) (by decide),
    ⟨_, executeGCode_linear_fault_then_ok wrongRespDev [⟨Letter.X, 4⟩] initialState 0 0
      "wrong response from device" rfl rfl rfl, rfl, ?_⟩⟩
  have hX : (retryState initialState [⟨Letter.X, 4⟩]).posX +
      (retryState initialState [⟨Letter.X, 4⟩]).offsetX = 0 := by
    rw [retryState_offsetX, retryState_posX_abs initialState [⟨Letter.X, 4⟩] rfl]
    ring
  have hY : (retryState initialState [⟨Letter.X, 4⟩]).posY +
      (retryState initialState [⟨Letter.X, 4⟩]).offsetY = 0 := by
    rw [retryState_offsetY, retryState_posY_abs initialState [⟨Letter.X, 4⟩] rfl]
    ring
  have hZ : (retryState initialState [⟨Letter.X, 4⟩]).posZ +
      (retryState initialState [⟨Letter.X, 4⟩]).offsetZ = 0 := by
    rw [retryState_offsetZ, retryState_posZ_abs initialState [⟨Letter.X, 4⟩] rfl]
    ring
  have hF : (retryState initialState [⟨Letter.X, 4⟩]).feedrate = 300 := by
    norm_num [retryState, recov, linearCallState, applyWords, List.foldl, applyWord,
      linearClamp, initialState]
  show (if initialState.spindleOn then _ else _) ++ _ = _
  rw [show initialState.spindleOn = false from rfl]
  rw [hX, hY, hZ, hF]
  rfl

/-- Claim C2 (corrected).  Amended claim: the error the Command Executor
raises after exhausting its acknowledgement retries is a
`serial.SerialException` and is therefore caught by the Modal
Translator's transport-fault recovery path (session restart plus
re-attempt of the same command) exactly like any other transport error;
it is not surfaced past the translator and does not abort the command
line. -/
theorem c2_protocol_error_recovered (dev : ℕ → Option String)
    (ws : List Word) (s : MState) (n fuel : ℕ)
    (h0 : dev n = some "wrong response from device")
    (h1 : dev (n + 1) = none) (h2 : dev (n + 2) = none) :
    (∀ acks : ℕ → ℕ, acks 0 ≠ 2 → acks 1 ≠ 2 → acks 2 ≠ 2 →
        executeCommandRun acks 0 = (3, Except.error "wrong response from device")) ∧
    ∃ r : MState × ℕ × List DevCmd × Option PyErr,
      executeGCode dev (fuel + 2) ⟨.linearMove, ws⟩ s n = some r ∧
      r.2.2.2 = none ∧ DevCmd.restart ∈ r.2.2.1 := by
  refine ⟨fun acks e0 e1 e2 => executeCommandRun_three_mismatch acks e0 e1 e2,
    ⟨_, executeGCode_linear_fault_then_ok dev ws s n fuel
      "wrong response from device" h0 h1 h2, rfl, ?_⟩⟩
  by_cases hsp : s.spindleOn <;> simp [hsp]

/-- Witness for C2's amended claim. -/
theorem c2_protocol_error_recovered_witness :
    wrongRespDev 0 = some "wrong response from device" ∧
    wrongRespDev (0 + 1) = none ∧ wrongRespDev (0 + 2) = none ∧
    ((∀ acks : ℕ → ℕ, acks 0 ≠ 2 → acks 1 ≠ 2 → acks 2 ≠ 2 →
        executeCommandRun acks 0 = (3, Except.error "wrong response from device")) ∧
     ∃ r : MState × ℕ × List DevCmd × Option PyErr,
       executeGCode wrongRespDev (0 + 2) ⟨.linearMove, []⟩ initialState 0 = some r ∧
       r.2.2.2 = none ∧ DevCmd.restart ∈ r.2.2.1) :=
  ⟨rfl, rfl, rfl,
   c2_protocol_error_recovered wrongRespDev [] initialState 0 0 rfl rfl rfl⟩

/-- Claim C9 (confirmed).  Fault recovery is not atomic with respect to
modal state: the parameter words applied before the fault are not rolled
back, and the handler's re-attempt runs the whole of `executeGCode`
again, re-applying the same words.  In Incremental distance mode a
single recovered fault therefore adds the X/Y/Z deltas to the logical
position twice: at fault time the position holds one delta, after the
recovered re-attempt it holds two. -/
theorem c9_incremental_double_apply (dev : ℕ → Option String) (s : MState)
    (n fuel : ℕ) (msg : String) (dx dy dz : ℚ)
    (hmode : s.absolutepositionmode = false)
    (h0 : dev n = some msg) (h1 : dev (n + 1) = none) (h2 : dev (n + 2) = none) :
    ∃ n' tr,
      executeGCode dev (fuel + 2)
          ⟨.linearMove, [⟨Letter.X, dx⟩, ⟨Letter.Y, dy⟩, ⟨Letter.Z, dz⟩]⟩ s n =
        some ({ retryState s [⟨Letter.X, dx⟩, ⟨Letter.Y, dy⟩, ⟨Letter.Z, dz⟩] with
                  mode := .linear }, n', tr, none) ∧
      (linearCallState s [⟨Letter.X, dx⟩, ⟨Letter.Y, dy⟩, ⟨Letter.Z, dz⟩]).posX = s.posX + dx ∧
      (linearCallState s [⟨Letter.X, dx⟩, ⟨Letter.Y, dy⟩, ⟨Letter.Z, dz⟩]).posY = s.posY + dy ∧
      (linearCallState s [⟨Letter.X, dx⟩, ⟨Letter.Y, dy⟩, ⟨Letter.Z, dz⟩]).posZ = s.posZ + dz ∧
      (retryState s [⟨Letter.X, dx⟩, ⟨Letter.Y, dy⟩, ⟨Letter.Z, dz⟩]).posX = s.posX + dx + dx ∧
      (retryState s [⟨Letter.X, dx⟩, ⟨Letter.Y, dy⟩, ⟨Letter.Z, dz⟩]).posY = s.posY + dy + dy ∧
      (retryState s [⟨Letter.X, dx⟩, ⟨Letter.Y, dy⟩, ⟨Letter.Z, dz⟩]).posZ = s.posZ + dz + dz := by
  set ws : List Word := [⟨Letter.X, dx⟩, ⟨Letter.Y, dy⟩, ⟨Letter.Z, dz⟩] with hws
  have habs : (linearCallState s ws).absolutepositionmode = false := by
    rw [linearCallState_abs]; exact hmode
  have hFX : (linearCallState s ws).posX = s.posX + dx := by
    rw [linearCallState, linearClamp_posX, hws]
    simp [applyWords, List.foldl, applyWord, hmode]
  have hFY : (linearCallState s ws).posY = s.posY + dy := by
    rw [linearCallState, linearClamp_posY, hws]
    simp [applyWords, List.foldl, applyWord, hmode]
  have hFZ : (linearCallState s ws).posZ = s.posZ + dz := by
    rw [linearCallState, linearClamp_posZ, hws]
    simp [applyWords, List.foldl, applyWord, hmode]
  have hRX : (retryState s ws).posX = s.posX + dx + dx := by
    rw [retryState, linearClamp_posX, hws]
    simp [applyWords, List.foldl, applyWord, recov, habs, hFX]
  have hRY : (retryState s ws).posY = s.posY + dy + dy := by
    rw [retryState, linearClamp_posY, hws]
    simp [applyWords, List.foldl, applyWord, recov, habs, hFY]
  have hRZ : (retryState s ws).posZ = s.posZ + dz + dz := by
    rw [retryState, linearClamp_posZ, hws]
    simp [applyWords, List.foldl, applyWord, recov, habs, hFZ]
  exact ⟨_, _,
    executeGCode_linear_fault_then_ok dev ws s n fuel msg h0 h1 h2,
    hFX, hFY, hFZ, hRX, hRY, hRZ⟩

/-- Witness for C9: one fault on `G1 X1 Y2 Z3` in incremental mode. -/
theorem c9_incremental_double_apply_witness :
    ({ initialState with absolutepositionmode := false } : MState).absolutepositionmode
        = false ∧
    oneFaultDev 0 = some "device not responding" ∧
    oneFaultDev (0 + 1) = none ∧ oneFaultDev (0 + 2) = none ∧
    (∃ n' tr,
      executeGCode oneFaultDev (0 + 2)
          ⟨.linearMove, [⟨Letter.X, 1⟩, ⟨Letter.Y, 2⟩, ⟨Letter.Z, 3⟩]⟩
          { initialState with absolutepositionmode := false } 0 =
        some ({ retryState { initialState with absolutepositionmode := false }
                  [⟨Letter.X, 1⟩, ⟨Letter.Y, 2⟩, ⟨Letter.Z, 3⟩] with
                  mode := .linear }, n', tr, none) ∧
      (linearCallState { initialState with absolutepositionmode := false }
          [⟨Letter.X, 1⟩, ⟨Letter.Y, 2⟩, ⟨Letter.Z, 3⟩]).posX =
        ({ initialState with absolutepositionmode := false } : MState).posX + 1 ∧
      (linearCallState { initialState with absolutepositionmode := false }
          [⟨Letter.X, 1⟩, ⟨Letter.Y, 2⟩, ⟨Letter.Z, 3⟩]).posY =
        ({ initialState with absolutepositionmode := false } : MState).posY + 2 ∧
      (linearCallState { initialState with absolutepositionmode := false }
          [⟨Letter.X, 1⟩, ⟨Letter.Y, 2⟩, ⟨Letter.Z, 3⟩]).posZ =
        ({ initialState with absolutepositionmode := false } : MState).posZ + 3 ∧
      (retryState { initialState with absolutepositionmode := false }
          [⟨Letter.X, 1⟩, ⟨Letter.Y, 2⟩, ⟨Letter.Z, 3⟩]).posX =
        ({ initialState with absolutepositionmode := false } : MState).posX + 1 + 1 ∧
      (retryState { initialState with absolutepositionmode := false }
          [⟨Letter.X, 1⟩, ⟨Letter.Y, 2⟩, ⟨Letter.Z, 3⟩]).posY =
        ({ initialState with absolutepositionmode := false } : MState).posY + 2 + 2 ∧
      (retryState { initialState with absolutepositionmode := false }
          [⟨Letter.X, 1⟩, ⟨Letter.Y, 2⟩, ⟨Letter.Z, 3⟩]).posZ =
        ({ initialState with absolutepositionmode := false } : MState).posZ + 3 + 3) :=
  ⟨rfl, rfl, rfl, rfl,
   c9_incremental_double_apply oneFaultDev
     { initialState with absolutepositionmode := false } 0 0
     "device not responding" 1 2 3 rfl rfl rfl rfl⟩

/-- Claim C7 (confirmed).  A line whose block contains no gcode at all
first applies its bare parameter words to the modal state and then
re-dispatches the command type of the last active motion mode, so the
previously active motion command is re-issued with updated parameters
(and the words do not change which mode is re-dispatched). -/
theorem c7_modal_carryover (dev : ℕ → Option String) (fuel : ℕ)
    (ws : List Word) (s : MState) (n : ℕ) :
    (applyWords s ws).mode = s.mode ∧
    parseLine dev fuel ⟨ws, []⟩ s n =
      executeGCode dev fuel (motionGCode s.mode) (applyWords s ws) n := by
  refine ⟨applyWords_mode s ws, ?_⟩
  simp only [parseLine, execList, List.isEmpty_nil, if_true, applyWords_mode]
  rcases hE : executeGCode dev fuel (motionGCode s.mode) (applyWords s ws) n with
    _ | ⟨s₂, n₂, tr₂, e⟩ <;> simp [hE]

/-- Claim C8 (confirmed).  On a dispatched linear move whose device call
succeeds, a modal feed rate above 1620 mm/min is clamped to exactly 1620
before the move (and its feed rate) is emitted; a feed rate at or below
1620 is passed through unchanged. -/
theorem c8_linear_feedrate_clamp (dev : ℕ → Option String) (ws : List Word)
    (s : MState) (n fuel : ℕ) (hok : dev n = none) :
    executeGCode dev (fuel + 1) ⟨.linearMove, ws⟩ s n =
      some ({ linearCallState s ws with mode := .linear }, n + 1,
            [.g1 ((linearCallState s ws).posX + (linearCallState s ws).offsetX)
                 ((linearCallState s ws).posY + (linearCallState s ws).offsetY)
                 ((linearCallState s ws).posZ + (linearCallState s ws).offsetZ)
                 (linearCallState s ws).feedrate],
            none) ∧
    ((applyWords s ws).feedrate > 1620 → (linearCallState s ws).feedrate = 1620) ∧
    ((applyWords s ws).feedrate ≤ 1620 →
      (linearCallState s ws).feedrate = (applyWords s ws).feedrate) := by
  refine ⟨?_, ?_, ?_⟩
  · rw [executeGCode, tryBody_linear_ok dev ws s n hok]
    rfl
  · intro h
    rw [linearCallState, linearClamp_feedrate, if_pos h]
  · intro h
    rw [linearCallState, linearClamp_feedrate, if_neg (not_lt.2 h)]

/-- Witness for C8: `G1 F2000` from the initial state. -/
theorem c8_linear_feedrate_clamp_witness :
    allOkDev 0 = none ∧
    (executeGCode allOkDev (0 + 1) ⟨.linearMove, [⟨Letter.F, 2000⟩]⟩ initialState 0 =
      some ({ linearCallState initialState [⟨Letter.F, 2000⟩] with mode := .linear }, 0 + 1,
            [.g1 ((linearCallState initialState [⟨Letter.F, 2000⟩]).posX +
                    (linearCallState initialState [⟨Letter.F, 2000⟩]).offsetX)
                 ((linearCallState initialState [⟨Letter.F, 2000⟩]).posY +
                    (linearCallState initialState [⟨Letter.F, 2000⟩]).offsetY)
                 ((linearCallState initialState [⟨Letter.F, 2000⟩]).posZ +
                    (linearCallState initialState [⟨Letter.F, 2000⟩]).offsetZ)
                 (linearCallState initialState [⟨Letter.F, 2000⟩]).feedrate],
            none) ∧
     ((applyWords initialState [⟨Letter.F, 2000⟩]).feedrate > 1620 →
       (linearCallState initialState [⟨Letter.F, 2000⟩]).feedrate = 1620) ∧
     ((applyWords initialState [⟨Letter.F, 2000⟩]).feedrate ≤ 1620 →
       (linearCallState initialState [⟨Letter.F, 2000⟩]).feedrate =
         (applyWords initialState [⟨Letter.F, 2000⟩]).feedrate)) :=
  ⟨rfl, c8_linear_feedrate_clamp allOkDev [⟨Letter.F, 2000⟩] initialState 0 0 rfl⟩

/-- Claim C10 (confirmed).  A freshly constructed translator starts in
Absolute distance mode at logical position (0,0,0) with recovery offset
(0,0,0), feed rate 300 mm/min, spindle off and last motion mode Linear;
hence a first line holding only parameter words (none of them an F word)
emits a linear move at feed rate 300. -/
theorem c10_initial_modal_state (dev : ℕ → Option String) (ws : List Word)
    (n fuel : ℕ) (hok : dev n = none)
    (hF : ∀ w ∈ ws, w.letter ≠ Letter.F) :
    initialState.posX = 0 ∧ initialState.posY = 0 ∧ initialState.posZ = 0 ∧
    initialState.offsetX = 0 ∧ initialState.offsetY = 0 ∧ initialState.offsetZ = 0 ∧
    initialState.feedrate = 300 ∧ initialState.spindleOn = false ∧
    initialState.mode = MotionMode.linear ∧
    initialState.absolutepositionmode = true ∧
    parseLine dev (fuel + 1) ⟨ws, []⟩ initialState n =
      some ({ applyWords initialState ws with mode := .linear }, n + 1,
            [.g1 (applyWords initialState ws).posX (applyWords initialState ws).posY
                 (applyWords initialState ws).posZ 300],
            none) := by
  have hmode : (applyWords initialState ws).mode = MotionMode.linear := by
    rw [applyWords_mode]; rfl
  have hfr : (applyWords initialState ws).feedrate = 300 := by
    rw [applyWords_feedrate_noF _ _ hF]; rfl
  refine ⟨rfl, rfl, rfl, rfl, rfl, rfl, rfl, rfl, rfl, rfl, ?_⟩
  have e1 : parseLine dev (fuel + 1) ⟨ws, []⟩ initialState n =
      executeGCode dev (fuel + 1) (motionGCode MotionMode.linear)
        (applyWords initialState ws) n := by
    simp only [parseLine, execList, List.isEmpty_nil, if_true, hmode]
    rcases hE : executeGCode dev (fuel + 1) (motionGCode MotionMode.linear)
        (applyWords initialState ws) n with _ | ⟨s₂, n₂, tr₂, e⟩ <;> simp [hE]
  rw [e1]
  show executeGCode dev (fuel + 1) ⟨.linearMove, []⟩ (applyWords initialState ws) n = _
  rw [executeGCode, tryBody_linear_ok dev [] (applyWords initialState ws) n hok]
  have hs₁ : linearClamp (applyWords (applyWords initialState ws) []) =
      applyWords initialState ws := by
    rw [applyWords_nil]
    unfold linearClamp
    rw [if_neg]
    rw [hfr]
    norm_num
  rw [hs₁]
  simp [applyWords_offsetX, applyWords_offsetY, applyWords_offsetZ, hfr,
    show initialState.offsetX = 0 from rfl, show initialState.offsetY = 0 from rfl,
    show initialState.offsetZ = 0 from rfl]

/-- Witness for C10: first line `X10` on a healthy device. -/
theorem c10_initial_modal_state_witness :
    allOkDev 0 = none ∧ (∀ w ∈ ([⟨Letter.X, 10⟩] : List Word), w.letter ≠ Letter.F) ∧
    (initialState.posX = 0 ∧ initialState.posY = 0 ∧ initialState.posZ = 0 ∧
     initialState.offsetX = 0 ∧ initialState.offsetY = 0 ∧ initialState.offsetZ = 0 ∧
     initialState.feedrate = 300 ∧ initialState.spindleOn = false ∧
     initialState.mode = MotionMode.linear ∧
     initialState.absolutepositionmode = true ∧
     parseLine allOkDev (0 + 1) ⟨[⟨Letter.X, 10⟩], []⟩ initialState 0 =
       some ({ applyWords initialState [⟨Letter.X, 10⟩] with mode := .linear }, 0 + 1,
             [.g1 (applyWords initialState [⟨Letter.X, 10⟩]).posX
                  (applyWords initialState [⟨Letter.X, 10⟩]).posY
                  (applyWords initialState [⟨Letter.X, 10⟩]).posZ 300],
             none)) :=
  ⟨rfl, by decide,
   c10_initial_modal_state allOkDev [⟨Letter.X, 10⟩] 0 0 rfl (by decide)⟩
